import Mathlib

/-!
Verification development for the SecureXfer repository.

The definitions below are a shallow embedding of the TypeScript source:
  * `src/electron/MDNSService.ts` — peer discovery (`handleResponse`, `getPeers`),
  * `src/electron/main.ts` — `generateCerts`, the `start-upload` IPC handler and its
    `checkServerIdentity` callback,
  * the `TransferServer` class — the `/upload` route, the socket handlers and
    `handleDecision`,
  * `src/src/App.tsx` — `handleSend` (the transfer initiator).

JavaScript strings are modelled as Lean `String`; the handful of string methods the
source uses (`split`, `startsWith`, `toUpperCase`) are given explicit structurally
recursive definitions over `String.data` so that every theorem can be evaluated by
the kernel on concrete inputs.  Byte buffers are `List Nat`.  JavaScript `Map`s are
association lists `List (String × α)`; `Map.set`/`Map.delete` are modelled below
(`mapSet` rebuilds the entry at the end of the list instead of updating it in place;
no claim in this development depends on iteration order of the map).
-/

set_option autoImplicit false

namespace SecureXfer

/-! ## String helpers (models of the JavaScript string methods used by the source) -/

/-- Split a character list at every occurrence of `c` (model of
`String.prototype.split` with a one-character separator). -/
def splitOnChar (c : Char) : List Char → List (List Char)
  | [] => [[]]
  | x :: xs =>
    match splitOnChar c xs with
    | [] => if x = c then [[], []] else [[x]]
    | h :: t => if x = c then [] :: h :: t else (x :: h) :: t

/-- `leadsWith p l` is true when the list `l` begins with the list `p`. -/
def leadsWith : List Char → List Char → Bool
  | [], _ => true
  | _ :: _, [] => false
  | a :: as, b :: bs => a == b && leadsWith as bs

/-- Model of `s.startsWith(p)` from JavaScript. -/
def jsStarts (s p : String) : Bool :=
  leadsWith p.data s.data

/-- Model of `s.split(sep)` for a one-character separator. -/
def jsSplit (c : Char) (s : String) : List String :=
  (splitOnChar c s.data).map (fun l => (⟨l⟩ : String))

/-- Model of `x.toString().split('=')[1]` as used by the mDNS response handler.
JavaScript indexing past the end yields `undefined`; the handler only ever applies
this to strings produced by `startsWith('…=')`, which always contain `'='`, so the
default value is never reached on the source's inputs. -/
def jsSplitValue (s : String) : String :=
  (jsSplit '=' s).getD 1 ""

/-- Model of `s.toUpperCase()` on ASCII data (hex digests are ASCII). -/
def upperAscii (s : String) : String :=
  ⟨s.data.map Char.toUpper⟩

/-! ## JavaScript `Map` model -/

/-- `Map.prototype.get`. -/
def mapGet {α : Type} (k : String) (m : List (String × α)) : Option α :=
  (m.find? (fun e => e.1 == k)).map (fun e => e.2)

/-- `Map.prototype.delete`. -/
def mapDelete {α : Type} (k : String) (m : List (String × α)) : List (String × α) :=
  m.filter (fun e => e.1 != k)

/-- `Map.prototype.set`.  A JavaScript `Map` keeps the original insertion position
when an existing key is overwritten; this model re-inserts the entry at the end
instead.  Key/value contents coincide, only iteration order differs, and no claim
below depends on the iteration order of the map. -/
def mapSet {α : Type} (k : String) (v : α) (m : List (String × α)) : List (String × α) :=
  mapDelete k m ++ [(k, v)]

/-! ## Discovery service (`src/electron/MDNSService.ts`) -/

/-- A `Peer` record exactly as in `MDNSService.ts`.  `lastSeen` is `Date.now()`,
modelled as an integer timestamp. -/
structure Peer where
  id : String
  name : String
  ip : String
  port : Nat
  fingerprint : String
  lastSeen : Int
  deriving DecidableEq, Repr

/-- The fixed mDNS service name (`this.serviceName`). -/
def serviceName : String := "securexfer.local"

/-- The payload of an mDNS record, by record type.  The handler in the source only
reads `txt.data` (an array of buffers, here strings), `srv.data.port` and
`aRecord.data` (an IP string), each only after checking the record's `type` field. -/
inductive RData where
  | ptrData (host : String)
  | srvData (port : Nat) (target : String)
  | txtData (entries : List String)
  | aData (ip : String)
  deriving DecidableEq, Repr

/-- One mDNS resource record. -/
structure DnsRecord where
  name : String
  rtype : String
  data : RData
  deriving DecidableEq, Repr

/-- An mDNS response packet: the two arrays the handler looks at. -/
structure MdnsResponse where
  answers : List DnsRecord
  additionals : List DnsRecord
  deriving DecidableEq, Repr

/-- `txt.data` (the list of TXT strings); empty when the payload has another shape. -/
def txtEntries : RData → List String
  | .txtData es => es
  | _ => []

/-- `srv.data.port`; `0` when the payload has another shape. -/
def srvPort : RData → Nat
  | .srvData p _ => p
  | _ => 0

/-- `aRecord.data` (the advertised IPv4 address); `""` when the payload has another shape. -/
def aIp : RData → String
  | .aData s => s
  | _ => ""

/-- The record lookups and TXT parsing performed by the `response` listener of
`MDNSService.setupListeners`, up to and including the extraction of
`id`, `name`, `fingerprint`, `srv.data.port` and the advertised IP.
Returns `none` exactly when the listener falls through without touching the
peer table (no matching PTR answer, a missing TXT/SRV/A additional, or a TXT
payload without one of the `id=`/`name=`/`fp=` entries). -/
def parseResponse (resp : MdnsResponse) :
    Option (String × String × String × Nat × String) :=
  match resp.answers.find? (fun a => a.name == serviceName && a.rtype == "PTR") with
  | none => none
  | some _ =>
    match resp.additionals.find? (fun a => a.rtype == "TXT"),
          resp.additionals.find? (fun a => a.rtype == "SRV"),
          resp.additionals.find? (fun a => a.rtype == "A") with
    | some txt, some srv, some aRec =>
      match (txtEntries txt.data).find? (fun d => jsStarts d "id="),
            (txtEntries txt.data).find? (fun d => jsStarts d "name="),
            (txtEntries txt.data).find? (fun d => jsStarts d "fp=") with
      | some idData, some nameData, some fpData =>
        some (jsSplitValue idData, jsSplitValue nameData, jsSplitValue fpData,
              srvPort srv.data, aIp aRec.data)
      | _, _, _ => none
    | _, _, _ => none

/-- The mutation the `response` listener performs on the peer table
(`src/electron/MDNSService.ts`).  On a parsed foreign response it first deletes
every existing entry that shares the advertised IP under a different id (the
restart-eviction loop), then `Map.set`s the new `Peer` with `lastSeen = Date.now()`
(here the parameter `now`).  In every other case the table is untouched. -/
def handleResponse (myId : String) (now : Int) (table : List (String × Peer))
    (resp : MdnsResponse) : List (String × Peer) :=
  match parseResponse resp with
  | none => table
  | some (id, name, fp, port, newPeerIp) =>
    if id ≠ myId then
      mapSet id ⟨id, name, newPeerIp, port, fp, now⟩
        (table.filter (fun e => !(e.2.ip == newPeerIp && e.1 != id)))
    else table

/-- `MDNSService.getPeers`: evicts every entry with `now - lastSeen > 30000`
from the table and returns the surviving table together with the returned array
(`Array.from(this.peers.values())`). -/
def getPeers (now : Int) (table : List (String × Peer)) :
    List (String × Peer) × List Peer :=
  let t := table.filter (fun e => !(decide (now - e.2.lastSeen > 30000)))
  (t, t.map (fun e => e.2))

/-- One external discovery event, as in the spec's event vocabulary.  `query`
covers both an incoming mDNS query (which only triggers `announce()`) and a
periodic `discover()`/`announce()` call: none of these reads or writes the peer
table, so they are identity steps on it. -/
inductive DiscoveryEvent where
  | response (now : Int) (resp : MdnsResponse)
  | sweep (now : Int)
  | query
  deriving Repr

/-- The effect of one discovery event on the peer table. -/
def stepEvent (myId : String) (table : List (String × Peer)) :
    DiscoveryEvent → List (String × Peer)
  | .response now resp => handleResponse myId now table resp
  | .sweep now => (getPeers now table).1
  | .query => table

/-- The peer table after a sequence of discovery events, starting from the empty
table a fresh `MDNSService` holds. -/
def runEvents (myId : String) (evs : List DiscoveryEvent) : List (String × Peer) :=
  evs.foldl (stepEvent myId) []

/-! ## Identity provider and fingerprint verification
(`generateCerts` and the `checkServerIdentity` callback in `src/electron/main.ts`)

`sha256hex` abstracts Node's `crypto.createHash('sha256').update(x).digest('hex')`
composite: a function from input bytes to the lowercase hex digest string.  Nothing
is assumed about it; every theorem either holds for all digest functions or
exhibits a concrete one. -/

/-- The certificate material `selfsigned.generate` returns: `pems.cert` is the PEM
text of the certificate (here its UTF-8 bytes) and `cert.raw` — what a TLS peer
later observes — is the DER encoding.  The two byte strings are always different
(PEM is a base64 armouring of DER). -/
structure GeneratedCert where
  pem : List Nat
  der : List Nat
  deriving DecidableEq, Repr

/-- The fingerprint computed by `generateCerts` (`src/electron/main.ts`):
`crypto.createHash('sha256').update(pems.cert).digest('hex').toUpperCase()`.
Note the hash input is `pems.cert`, the PEM text. -/
def generateCertsFingerprint (sha256hex : List Nat → String) (c : GeneratedCert) : String :=
  upperAscii (sha256hex c.pem)

/-- The digest the initiator recomputes inside `checkServerIdentity` from the
server's presented certificate: `sha256` over `cert.raw`, the DER bytes. -/
def initiatorFingerprint (sha256hex : List Nat → String) (derRaw : List Nat) : String :=
  upperAscii (sha256hex derRaw)

/-- The `checkServerIdentity` callback of the `https.Agent` built by the
`start-upload` IPC handler: recompute the server fingerprint from the raw (DER)
certificate, compare with strict string inequality (`!==`) against the recorded
`expectedFingerprint`, and return `new Error('Fingerprint mismatch!')` on
inequality, `undefined` (here `none`) otherwise. -/
def checkServerIdentity (sha256hex : List Nat → String) (certRaw : List Nat)
    (expectedFingerprint : String) : Option String :=
  let serverFp := upperAscii (sha256hex certRaw)
  if serverFp ≠ expectedFingerprint then some "Fingerprint mismatch!" else none

/-! ## Transfer initiator (`handleSend` in `src/src/App.tsx` together with the
`start-upload` IPC handler in `src/electron/main.ts`)

`handleSend` opens a socket.io connection to the chosen peer (with
`rejectUnauthorized: false` and no identity check of its own), immediately emits
`request-transfer`, and then waits for the decision with a 30 s timeout.  Only on
an accepted transfer does it invoke `start-upload` per file; each `start-upload`
opens a fresh HTTPS connection whose TLS handshake runs `checkServerIdentity`
before any request-body byte is put on the wire, so a fingerprint mismatch makes
`axios.post` reject without sending file data, and the `catch` in `handleSend`
aborts the remaining file queue.  The trace of externally visible actions: -/

/-- Externally visible actions of one `handleSend` run. -/
inductive SendAction where
  /-- `socket.emit('request-transfer', …)` on the control channel. -/
  | requestTransfer (id : String)
  /-- `n` bytes of a file's data sent over the upload channel. -/
  | fileBytes (n : Nat)
  /-- an upload rejected with an error before its body was sent. -/
  | uploadError (msg : String)
  /-- `socket.emit('cancel-transfer', …)` after the 30 s timeout. -/
  | cancelNotice (id : String)
  deriving DecidableEq, Repr

/-- The decision outcome observed by `handleSend`'s `transfer-decision` listener,
or the 30 s timeout. -/
inductive Decision where
  | allowed
  | denied
  | timeout
  deriving DecidableEq, Repr

/-- The sequential per-file upload loop of the accepted branch of `handleSend`:
each iteration awaits `start-upload`, whose TLS handshake runs
`checkServerIdentity` against the certificate the server presents; the first
failing upload aborts the remaining queue (the `catch` around the `for` loop). -/
def uploadLoop (sha256hex : List Nat → String) (serverCert : List Nat)
    (recordedFp : String) : List Nat → List SendAction
  | [] => []
  | size :: rest =>
    match checkServerIdentity sha256hex serverCert recordedFp with
    | some e => [SendAction.uploadError e]
    | none => SendAction.fileBytes size :: uploadLoop sha256hex serverCert recordedFp rest

/-- The action trace of one `handleSend` run against a server presenting
`serverCert`, with the peer's fingerprint `recordedFp` as recorded at discovery
time, the selected file sizes `files`, and decision outcome `d`.  The
`request-transfer` emit happens unconditionally, before anything consults the
peer's certificate fingerprint. -/
def handleSendActions (sha256hex : List Nat → String) (serverCert : List Nat)
    (recordedFp : String) (tid : String) (files : List Nat) (d : Decision) :
    List SendAction :=
  SendAction.requestTransfer tid ::
    match d with
    | .allowed => uploadLoop sha256hex serverCert recordedFp files
    | .denied => []
    | .timeout => [SendAction.cancelNotice tid]

/-! ## Transfer listener: decision map (`TransferServer`) -/

/-- Events the `TransferServer` emits while resolving or cancelling a pending
decision. -/
inductive ServerEvent where
  /-- `socket.emit('transfer-decision', { id, allowed })` on the originating socket. -/
  | emitDecision (sock : Nat) (id : String) (allowed : Bool)
  /-- `win.webContents.send('cancel-transfer', { id })` to the approval surface. -/
  | notifyCancel (id : String)
  deriving DecidableEq, Repr

/-- `TransferServer.handleDecision(transferId, allowed)`.  The stored callback
(registered by the `request-transfer` socket handler) emits the outcome on the
originating socket and, when `allowed` is false, deletes the entry; `handleDecision`
then deletes the entry in either case.  The map value `Nat` stands for the handle
of the originating socket captured by the callback's closure.  A missing entry is
a silent no-op — the source raises nothing. -/
def handleDecision (m : List (String × Nat)) (id : String) (allowed : Bool) :
    List (String × Nat) × List ServerEvent :=
  match mapGet id m with
  | some sock => (mapDelete id m, [ServerEvent.emitDecision sock id allowed])
  | none => (m, [])

/-- The `cancel-transfer` socket handler: only when the id is still in
`activeDecisions` does it delete the entry and notify the approval surface;
otherwise nothing happens and nothing is raised. -/
def cancelTransfer (m : List (String × Nat)) (id : String) :
    List (String × Nat) × List ServerEvent :=
  if (mapGet id m).isSome then (mapDelete id m, [ServerEvent.notifyCancel id])
  else (m, [])

/-! ## Upload route: save-path computation (`/upload` in `TransferServer`) -/

/-- Strip empty and `"."` segments and resolve `".."` segments the way
`path.posix.normalize` does: a `".."` pops the previous real segment; leading
`".."`s are kept for a relative path and dropped at the root of an absolute one.
`acc` holds the already-normalised segments in reverse. -/
def normSegs (isAbs : Bool) : List String → List String → List String
  | acc, [] => acc.reverse
  | acc, s :: rest =>
    if s = "." then normSegs isAbs acc rest
    else if s = ".." then
      match acc with
      | [] => if isAbs then normSegs isAbs [] rest else normSegs isAbs [".."] rest
      | t :: acc' =>
        if t = ".." then normSegs isAbs (s :: t :: acc') rest
        else normSegs isAbs acc' rest
    else normSegs isAbs (s :: acc) rest

/-- Join a segment list with `'/'`. -/
def joinWithSlash : List String → String
  | [] => ""
  | [s] => s
  | s :: rest => s ++ "/" ++ joinWithSlash rest

/-- Model of Node's `path.join(a, b)` (POSIX): concatenate with a separator and
normalise.  (Node additionally preserves a trailing slash of `b`; no claim here
involves trailing slashes.) -/
def pathJoin (a b : String) : String :=
  let isAbs := leadsWith ['/'] a.data
  let segs := (jsSplit '/' (a ++ "/" ++ b)).filter (fun s => s ≠ "")
  let body := joinWithSlash (normSegs isAbs [] segs)
  if body = "" then (if isAbs then "/" else ".") else
    (if isAbs then "/" ++ body else body)

/-- The save path the `/upload` route writes to:
`path.join(app.getPath('downloads'), req.query.filename)` — the raw `filename`
query parameter is joined with no sanitisation. -/
def uploadSavePath (downloadsPath rawFileName : String) : String :=
  pathJoin downloadsPath rawFileName

/-- `p` lies within directory `dir`: it is `dir` itself or has `dir ++ "/"` as a
leading part (both sides already normalised). -/
def withinDir (dir p : String) : Bool :=
  p == dir || leadsWith (dir ++ "/").data p.data

/-! ## Progress reporting (`start-upload` in `src/electron/main.ts` and the
accepted branch of `handleSend` in `src/src/App.tsx`) -/

/-- `Math.round((num / den) * 100)` for nonnegative integers, computed exactly:
`⌊100·num/den + 1/2⌋`.  (For `den = 0` the source computes `NaN`; no claim below
divides by zero.) -/
def jsRound100 (num den : Nat) : Nat :=
  (200 * num + den) / (2 * den)

/-- The progress percentages emitted by the `fileStream.on('data')` listener of one
`start-upload` call: `uploadedSize` accumulates this file's chunk lengths and each
chunk reports `Math.round((uploadedSize / totalSize) * 100)` where `totalSize` is
the size of the file currently being uploaded. -/
def chunkEvents (fileSize : Nat) : Nat → List Nat → List Nat
  | _, [] => []
  | uploaded, c :: rest =>
    jsRound100 (uploaded + c) fileSize :: chunkEvents fileSize (uploaded + c) rest

/-- All per-chunk progress events of one `start-upload` call, given the file's
declared size and the lengths of the stream's chunks. -/
def startUploadProgressEvents (fileSize : Nat) (chunks : List Nat) : List Nat :=
  chunkEvents fileSize 0 chunks

/-- The per-chunk progress events of a whole accepted multi-file transfer: the
`for (const file of selectedFiles)` loop of `handleSend` runs `start-upload`
sequentially per file, so the per-chunk events concatenate.  Each file is given as
`(declared size, chunk lengths)`. -/
def multiFileProgressEvents : List (Nat × List Nat) → List Nat
  | [] => []
  | f :: rest => startUploadProgressEvents f.1 f.2 ++ multiFileProgressEvents rest

/-- The running totals `c₁, c₁+c₂, …` of a chunk list (used to state the amended
form of claim C10). -/
def runningTotals : Nat → List Nat → List Nat
  | _, [] => []
  | acc, c :: rest => (acc + c) :: runningTotals (acc + c) rest

/-- All chunk lengths of a multi-file set, in upload order. -/
def allChunks : List (Nat × List Nat) → List Nat
  | [] => []
  | f :: rest => f.2 ++ allChunks rest

/-- The total declared size of the multi-file set (`totalSize` in `handleSend`:
the sum of the selected files' sizes). -/
def setTotalSize (files : List (Nat × List Nat)) : Nat :=
  (files.map (fun f => f.1)).sum

/-- Modelled from the spec's words, for comparison with
`multiFileProgressEvents`: per-chunk progress computed as cumulative bytes sent
across the whole multi-file set divided by the total declared size of the set
(claim C10's asserted behaviour). -/
def cumulativeSetProgressEvents (files : List (Nat × List Nat)) : List Nat :=
  (runningTotals 0 (allChunks files)).map (fun u => jsRound100 u (setTotalSize files))

/-! ## Concrete sample data used by counterexamples and witnesses -/

/-- A stand-in digest function for the abstract `sha256hex` parameter: every input
hashes to the lowercase hex string `"ab"`. -/
def digestConstAB : List Nat → String := fun _ => "ab"

/-- A stand-in digest function distinguishing the two byte strings of
`certSample`: inputs of length at most 2 hash to `"aa"`, longer inputs to
`"bbbb"`. -/
def digestByLen : List Nat → String :=
  fun l => if l.length ≤ 2 then "aa" else "bbbb"

/-- One generated certificate: PEM text bytes and the (shorter) DER bytes it
encodes.  PEM armouring is always a different byte string from the DER. -/
def certSample : GeneratedCert := ⟨[48, 45, 45, 45, 45], [48, 130]⟩

/-- A sample peer last seen at time 0. -/
def peerStale : Peer := ⟨"a", "host-a", "10.0.0.9", 1, "FPA", 0⟩

/-- A sample peer with id `"A"` at IP `10.0.0.5`. -/
def peerA : Peer := ⟨"A", "hostA", "10.0.0.5", 1111, "FPA", 0⟩

/-- A well-formed foreign discovery response advertising id `"B"`, name
`"hostB"`, fingerprint `"FPB"`, port 4433 at IP `10.0.0.5`. -/
def respB : MdnsResponse :=
  ⟨[⟨serviceName, "PTR", .ptrData "host.securexfer.local"⟩],
   [⟨"host.securexfer.local", "TXT", .txtData ["id=B", "name=hostB", "fp=FPB"]⟩,
    ⟨"host.securexfer.local", "SRV", .srvData 4433 "host.local"⟩,
    ⟨"host.local", "A", .aData "10.0.0.5"⟩]⟩

/-- A response with a matching PTR answer but no additionals at all. -/
def respNoTxt : MdnsResponse :=
  ⟨[⟨serviceName, "PTR", .ptrData "host.securexfer.local"⟩], []⟩

/-! # Theorems -/

/-! ## Claim C5 — `getPeers` staleness sweep -/

/-- Claim C5: at every call of `getPeers()` at time `now`, every peer record with
`now - lastSeen` strictly greater than 30000 is excluded from the returned list and
deleted from the peer table, and every record with `now - lastSeen` at most 30000
is present in the returned list. -/
theorem getPeers_staleness (now : Int) (table : List (String × Peer)) (k : String)
    (p : Peer) (hmem : (k, p) ∈ table) :
    (now - p.lastSeen > 30000 →
      (k, p) ∉ (getPeers now table).1 ∧ p ∉ (getPeers now table).2) ∧
    (now - p.lastSeen ≤ 30000 → p ∈ (getPeers now table).2) := by
  refine ⟨fun hstale => ⟨fun hin => ?_, fun hin => ?_⟩, fun hfresh => ?_⟩
  · simp only [getPeers, List.mem_filter, Bool.not_eq_true',
      decide_eq_false_iff_not] at hin
    exact hin.2 hstale
  · simp only [getPeers, List.mem_map, List.mem_filter, Bool.not_eq_true',
      decide_eq_false_iff_not] at hin
    obtain ⟨e, ⟨_, hpred⟩, he⟩ := hin
    rw [he] at hpred
    exact hpred hstale
  · simp only [getPeers, List.mem_map, List.mem_filter, Bool.not_eq_true',
      decide_eq_false_iff_not]
    exact ⟨(k, p), ⟨hmem, by show ¬(now - p.lastSeen > 30000); omega⟩, rfl⟩

/-- Witness for C5 at a concrete stale table. -/
theorem getPeers_staleness_witness :
    ("a", peerStale) ∈ [("a", peerStale)] ∧
    (((40000 : Int) - peerStale.lastSeen > 30000 →
      ("a", peerStale) ∉ (getPeers 40000 [("a", peerStale)]).1 ∧
      peerStale ∉ (getPeers 40000 [("a", peerStale)]).2) ∧
    ((40000 : Int) - peerStale.lastSeen ≤ 30000 →
      peerStale ∈ (getPeers 40000 [("a", peerStale)]).2)) :=
  ⟨by decide, getPeers_staleness 40000 [("a", peerStale)] "a" peerStale (by decide)⟩

/-! ## Claim C7 — responses missing a required record leave the table unchanged -/

/-- Claim C7: a discovery response whose answers contain a matching PTR record but
whose additionals lack at least one of the TXT, SRV or A records leaves the peer
table exactly unchanged. -/
theorem response_missing_record_leaves_table (myId : String) (now : Int)
    (table : List (String × Peer)) (resp : MdnsResponse)
    (hptr : (resp.answers.find?
      (fun a => a.name == serviceName && a.rtype == "PTR")).isSome = true)
    (hmiss : resp.additionals.find? (fun a => a.rtype == "TXT") = none
      ∨ resp.additionals.find? (fun a => a.rtype == "SRV") = none
      ∨ resp.additionals.find? (fun a => a.rtype == "A") = none) :
    handleResponse myId now table resp = table := by
  have hparse : parseResponse resp = none := by
    unfold parseResponse
    obtain ⟨ptr, hp⟩ := Option.isSome_iff_exists.mp hptr
    rw [hp]
    rcases hmiss with h | h | h <;>
    · cases hx : resp.additionals.find? (fun a => a.rtype == "TXT") <;>
      cases hy : resp.additionals.find? (fun a => a.rtype == "SRV") <;>
      cases hz : resp.additionals.find? (fun a => a.rtype == "A") <;>
      simp_all
  simp [handleResponse, hparse]

/-- Witness for C7: a response with a matching PTR answer and no additionals. -/
theorem response_missing_record_witness :
    ((respNoTxt.answers.find?
      (fun a => a.name == serviceName && a.rtype == "PTR")).isSome = true) ∧
    (respNoTxt.additionals.find? (fun a => a.rtype == "TXT") = none) ∧
    handleResponse "me" 5 [("a", peerStale)] respNoTxt = [("a", peerStale)] :=
  ⟨by decide, by decide,
   response_missing_record_leaves_table "me" 5 [("a", peerStale)] respNoTxt
     (by decide) (Or.inl (by decide))⟩

/-! ## Claim C8 — a pending decision resolves at most once -/

/-- Claim C8: the first `transfer-decision` for a registered transferId emits the
outcome on the originating socket and removes the pending decision; a subsequent
`transfer-decision` or `cancel-transfer` with the same transferId is a no-op that
emits nothing and leaves the decision map unchanged (and raises nothing — the
no-op case returns normally). -/
theorem decision_resolved_once (m : List (String × Nat)) (id : String) (sock : Nat)
    (a b : Bool) (h : mapGet id m = some sock) :
    (handleDecision m id a).2 = [ServerEvent.emitDecision sock id a] ∧
    mapGet id (handleDecision m id a).1 = none ∧
    handleDecision (handleDecision m id a).1 id b = ((handleDecision m id a).1, []) ∧
    cancelTransfer (handleDecision m id a).1 id = ((handleDecision m id a).1, []) := by
  have hdel : mapGet id (mapDelete id m) = (none : Option Nat) := by
    have hfind : (mapDelete id m).find? (fun e => e.1 == id) = none := by
      refine List.find?_eq_none.mpr (fun x hx => ?_)
      have hpred := (List.mem_filter.mp hx).2
      simpa using hpred
    simp [mapGet, hfind]
  simp [handleDecision, cancelTransfer, h, hdel]

/-- Witness for C8 at a concrete one-entry decision map. -/
theorem decision_resolved_once_witness :
    mapGet "t1" [("t1", 7)] = some 7 ∧
    ((handleDecision [("t1", 7)] "t1" true).2 = [ServerEvent.emitDecision 7 "t1" true] ∧
     mapGet "t1" (handleDecision [("t1", 7)] "t1" true).1 = none ∧
     handleDecision (handleDecision [("t1", 7)] "t1" true).1 "t1" false =
       ((handleDecision [("t1", 7)] "t1" true).1, []) ∧
     cancelTransfer (handleDecision [("t1", 7)] "t1" true).1 "t1" =
       ((handleDecision [("t1", 7)] "t1" true).1, [])) :=
  ⟨by decide, decision_resolved_once [("t1", 7)] "t1" 7 true false (by decide)⟩

/-! ## Claim C4 — fingerprint comparison is NOT case-insensitive -/

/-- Claim C4 counterexample: the presented certificate's hex digest and the
recorded peer fingerprint are equal up to ASCII letter case (here even the same
lowercase string `"ab"`), yet `checkServerIdentity` raises the
fingerprint-mismatch error: the comparison uppercases only the recomputed digest
and then uses strict string inequality. -/
theorem fingerprint_case_counterexample :
    upperAscii (digestConstAB [1]) = upperAscii "ab" ∧
    checkServerIdentity digestConstAB [1] "ab" = some "Fingerprint mismatch!" := by
  decide

/-- Claim C4 amended: verification succeeds exactly when the recorded fingerprint
is literally the uppercased hex digest of the presented certificate — the
comparison is case-sensitive in the recorded fingerprint and tolerates case only
in the computed digest (which is normalised to uppercase before comparing). -/
theorem checkServerIdentity_exact_match (h : List Nat → String) (raw : List Nat)
    (fp : String) :
    checkServerIdentity h raw fp = none ↔ fp = upperAscii (h raw) := by
  unfold checkServerIdentity
  by_cases hc : upperAscii (h raw) = fp
  · simp [hc]
  · simp only [ne_eq, hc, not_false_eq_true, if_pos]
    constructor
    · intro hh; cases hh
    · intro hh; exact absurd hh.symm hc

/-! ## Claim C1 — what a fingerprint mismatch does and does not prevent -/

/-- Claim C1 counterexample: against a server whose presented certificate's
fingerprint differs from the recorded one, the initiator still emits the
`request-transfer` message — `handleSend` opens the socket.io control channel with
`rejectUnauthorized: false` and no fingerprint check and emits immediately; the
only fingerprint verification sits in the upload channel's `checkServerIdentity`. -/
theorem trust_abort_counterexample :
    checkServerIdentity digestConstAB [1] "WRONG" ≠ none ∧
    SendAction.requestTransfer "t1" ∈
      handleSendActions digestConstAB [1] "WRONG" "t1" [100] Decision.allowed := by
  decide

/-- Claim C1 amended: under a fingerprint mismatch no byte of file data is ever
sent — every `start-upload` fails its TLS identity check before the request body,
and the first failure aborts the remaining file queue — but the `request-transfer`
message is still sent over the (unverified) control channel. -/
theorem mismatch_sends_no_file_bytes (h : List Nat → String) (serverCert : List Nat)
    (recordedFp tid : String) (files : List Nat) (d : Decision) (n : Nat)
    (hmis : checkServerIdentity h serverCert recordedFp ≠ none) :
    SendAction.fileBytes n ∉ handleSendActions h serverCert recordedFp tid files d := by
  obtain ⟨e, he⟩ : ∃ e, checkServerIdentity h serverCert recordedFp = some e := by
    cases hc : checkServerIdentity h serverCert recordedFp
    · exact absurd hc hmis
    · exact ⟨_, rfl⟩
  cases d <;> cases files <;> simp [handleSendActions, uploadLoop, he]

/-- Witness for the amended C1 at a concrete mismatching fingerprint. -/
theorem mismatch_sends_no_file_bytes_witness :
    checkServerIdentity digestConstAB [1] "WRONG" ≠ none ∧
    SendAction.fileBytes 100 ∉
      handleSendActions digestConstAB [1] "WRONG" "t1" [100] Decision.allowed :=
  ⟨by decide,
   mismatch_sends_no_file_bytes digestConstAB [1] "WRONG" "t1" [100]
     Decision.allowed 100 (by decide)⟩

/-! ## Claim C2 — the generated fingerprint hashes the PEM, not the DER -/

/-- Claim C2 fails on the code: `generateCerts` feeds `pems.cert` — the PEM text —
to SHA-256, while the digest the initiator recomputes in `checkServerIdentity` is
over `cert.raw`, the DER encoding.  At a certificate whose PEM and DER bytes hash
differently (always the case for a real digest function, since PEM and DER are
different byte strings), the produced fingerprint differs from the recomputed one,
and the initiator's check rejects the very fingerprint `generateCerts` announced
for the same certificate. -/
theorem generateCerts_hashes_pem_not_der :
    generateCertsFingerprint digestByLen certSample = "BBBB" ∧
    initiatorFingerprint digestByLen certSample.der = "AA" ∧
    generateCertsFingerprint digestByLen certSample ≠
      initiatorFingerprint digestByLen certSample.der ∧
    checkServerIdentity digestByLen certSample.der
      (generateCertsFingerprint digestByLen certSample) =
        some "Fingerprint mismatch!" := by
  decide

/-! ## Claim C3 — the `/upload` save path escapes the downloads directory -/

/-- Claim C3 fails on the code: the `/upload` route joins the raw `filename` query
parameter onto the downloads directory with no sanitisation, so a filename with
parent-directory segments resolves outside the downloads directory — despite the
route's own comment that path traversal is not allowed.  A plain relative filename
with subdirectories stays inside, which is the commented intent. -/
theorem upload_path_traversal :
    uploadSavePath "/home/user/Downloads" "../../secrets/key.txt" =
      "/home/secrets/key.txt" ∧
    withinDir "/home/user/Downloads"
      (uploadSavePath "/home/user/Downloads" "../../secrets/key.txt") = false ∧
    uploadSavePath "/home/user/Downloads" "album/track.mp3" =
      "/home/user/Downloads/album/track.mp3" ∧
    withinDir "/home/user/Downloads"
      (uploadSavePath "/home/user/Downloads" "album/track.mp3") = true := by
  decide

/-! ## Claim C10 — per-chunk progress is per-file, not per-set -/

/-- Claim C10 counterexample: for an accepted transfer of two 100-byte files sent
in 50-byte chunks, the sender's per-chunk progress events are
`[50, 100, 50, 100]` — each file's own fraction — while the claimed
cumulative-set formula would give `[25, 50, 75, 100]`. -/
theorem progress_counterexample :
    multiFileProgressEvents [(100, [50, 50]), (100, [50, 50])] =
      [50, 100, 50, 100] ∧
    cumulativeSetProgressEvents [(100, [50, 50]), (100, [50, 50])] =
      [25, 50, 75, 100] ∧
    multiFileProgressEvents [(100, [50, 50]), (100, [50, 50])] ≠
      cumulativeSetProgressEvents [(100, [50, 50]), (100, [50, 50])] := by
  decide

/-- The per-chunk events of one upload are the rounded percentages of the running
chunk totals over the declared size of that one file. -/
theorem chunkEvents_eq_map (sz : Nat) (cs : List Nat) :
    ∀ u, chunkEvents sz u cs = (runningTotals u cs).map (fun x => jsRound100 x sz) := by
  induction cs with
  | nil => intro u; rfl
  | cons c rest ih => intro u; simp [chunkEvents, runningTotals, ih]

/-- Claim C10 amended: every per-chunk progress event of an accepted multi-file
transfer reports the integer-rounded percentage of the current file's cumulative
bytes divided by that file's own declared size; the cumulative-set percentage is
only reported by the separate between-files update in `handleSend`, not by the
per-chunk events. -/
theorem progress_is_per_file (files : List (Nat × List Nat)) :
    multiFileProgressEvents files =
      (files.map (fun f => (runningTotals 0 f.2).map (fun u => jsRound100 u f.1))).flatten := by
  induction files with
  | nil => rfl
  | cons f rest ih =>
    simp [multiFileProgressEvents, startUploadProgressEvents, chunkEvents_eq_map, ih]

/-! ## Claim C6 — same-IP different-id responses evict the old record -/

/-- Claim C6: if the peer table contains a record with ip `X` under id `A`, and an
otherwise-valid foreign discovery response advertising ip `X` with id `B ≠ A` is
handled, the resulting table contains exactly one record with ip `X`, and its id
is `B`: the restart-eviction loop first deletes every same-IP entry stored under a
different id, and the subsequent `Map.set` stores the new record under `B`. -/
theorem duplicate_ip_single_record (myId : String) (now : Int)
    (table : List (String × Peer)) (resp : MdnsResponse)
    (A B nameS fpS X : String) (port : Nat) (pA : Peer)
    (hparse : parseResponse resp = some (B, nameS, fpS, port, X))
    (hforeign : B ≠ myId)
    (_hmem : (A, pA) ∈ table) (_hip : pA.ip = X) (_hAB : A ≠ B) :
    (handleResponse myId now table resp).filter (fun e => e.2.ip == X) =
      [(B, ⟨B, nameS, X, port, fpS, now⟩)] := by
  simp only [handleResponse, hparse]
  rw [if_pos hforeign]
  simp only [mapSet, mapDelete, List.filter_append, List.filter_filter]
  have hnil :
      table.filter (fun a =>
        (a.2.ip == X) && ((a.1 != B) && !(a.2.ip == X && a.1 != B))) = [] := by
    refine List.filter_eq_nil_iff.mpr (fun e _ => ?_)
    cases hb : (e.1 == B) <;> cases ha : (e.2.ip == X) <;> simp [hb, ha, bne]
  rw [hnil]
  simp

/-- Witness for C6: the table holds `("A", peerA)` at IP `10.0.0.5`; the response
advertises id `"B"` from the same IP; afterwards `10.0.0.5` is held only by `"B"`. -/
theorem duplicate_ip_single_record_witness :
    parseResponse respB = some ("B", "hostB", "FPB", 4433, "10.0.0.5") ∧
    ("B" : String) ≠ "me" ∧
    ("A", peerA) ∈ [("A", peerA)] ∧
    peerA.ip = "10.0.0.5" ∧
    ("A" : String) ≠ "B" ∧
    (handleResponse "me" 7 [("A", peerA)] respB).filter
        (fun e => e.2.ip == "10.0.0.5") =
      [("B", ⟨"B", "hostB", "10.0.0.5", 4433, "FPB", 7⟩)] :=
  ⟨by decide, by decide, by decide, by decide, by decide,
   duplicate_ip_single_record "me" 7 [("A", peerA)] respB "A" "B" "hostB" "FPB"
     "10.0.0.5" 4433 peerA (by decide) (by decide) (by decide) (by decide)
     (by decide)⟩

/-! ## Claim C9 — the peer table never returns the local id -/

/-- The response handler preserves the invariant that no stored record carries the
local id: the insertion is guarded by `id !== this.myId`, and everything else only
deletes entries. -/
theorem handleResponse_keeps_noSelf (myId : String) (now : Int)
    (table : List (String × Peer)) (resp : MdnsResponse)
    (h : ∀ e ∈ table, e.2.id ≠ myId) :
    ∀ e ∈ handleResponse myId now table resp, e.2.id ≠ myId := by
  intro e he
  unfold handleResponse at he
  split at he
  · exact h e he
  · rename_i id name fp port ip heq
    split at he
    · rename_i hid
      simp only [mapSet, mapDelete] at he
      rcases List.mem_append.mp he with hl | hr
      · exact h e (List.mem_filter.mp (List.mem_filter.mp hl).1).1
      · have hre : e = (id, ⟨id, name, ip, port, fp, now⟩) := by simpa using hr
        rw [hre]
        exact hid
    · exact h e he

/-- Every discovery event preserves the no-local-id invariant of the peer table. -/
theorem stepEvent_keeps_noSelf (myId : String) (table : List (String × Peer))
    (ev : DiscoveryEvent) (h : ∀ e ∈ table, e.2.id ≠ myId) :
    ∀ e ∈ stepEvent myId table ev, e.2.id ≠ myId := by
  cases ev with
  | response now resp => exact handleResponse_keeps_noSelf myId now table resp h
  | sweep now =>
    intro e he
    simp only [stepEvent, getPeers] at he
    exact h e (List.mem_filter.mp he).1
  | query => exact h

/-- After any sequence of discovery events from the empty table, no stored record
carries the local id. -/
theorem runEvents_noSelf (myId : String) (evs : List DiscoveryEvent) :
    ∀ e ∈ runEvents myId evs, e.2.id ≠ myId := by
  suffices h : ∀ t, (∀ e ∈ t, e.2.id ≠ myId) →
      ∀ e ∈ evs.foldl (stepEvent myId) t, e.2.id ≠ myId by
    exact h [] (by simp)
  induction evs with
  | nil => intro t ht; simpa using ht
  | cons ev rest ih => intro t ht; exact ih _ (stepEvent_keeps_noSelf myId t ev ht)

/-- Claim C9: for every sequence of discovery events (queries, responses,
announcements, sweeps) starting from a fresh service, `getPeers()` never returns a
record whose id equals the local instance's own id — no entry carrying the local
id is ever inserted into the peer table. -/
theorem getPeers_never_local_id (myId : String) (evs : List DiscoveryEvent)
    (now : Int) (p : Peer)
    (hp : p ∈ (getPeers now (runEvents myId evs)).2) : p.id ≠ myId := by
  simp only [getPeers, List.mem_map] at hp
  obtain ⟨e, he, rfl⟩ := hp
  exact runEvents_noSelf myId evs e (List.mem_filter.mp he).1

/-- Witness for C9: one foreign response populates the table and the returned
record's id differs from the local id. -/
theorem getPeers_never_local_id_witness :
    (⟨"B", "hostB", "10.0.0.5", 4433, "FPB", 7⟩ : Peer) ∈
      (getPeers 7 (runEvents "me" [DiscoveryEvent.response 7 respB])).2 ∧
    (⟨"B", "hostB", "10.0.0.5", 4433, "FPB", 7⟩ : Peer).id ≠ "me" :=
  ⟨by decide,
   getPeers_never_local_id "me" [DiscoveryEvent.response 7 respB] 7 _ (by decide)⟩

end SecureXfer
